import Mathlib

/-!
Verification of the jim-jam room session coordinator (src/server.js).

The JavaScript server is shallowly embedded: JS numbers become an inductive
type `JSNum` over the rationals with explicit NaN and infinities, loosely
typed payload values become `JSVal`, a room is a Lean structure mirroring the
object created by the create-room route, and every socket event handler
becomes a pure function from the room state (plus the payload, the socket id
and the current clock value in milliseconds) to the new room state together
with the ordered list of events it emits, each tagged with its delivery scope.
-/

/-- A JavaScript number: a finite rational, an infinity, or NaN.
(The server only ever manipulates payload numbers by comparison and
addition, so exact rational arithmetic is a faithful model.) -/
inductive JSNum where
  | fin (q : ℚ)
  | posInf
  | negInf
  | nan
deriving DecidableEq

namespace JSNum

/-- JavaScript's global isNaN on a number. -/
def isNaN : JSNum → Bool
  | .nan => true
  | _ => false

/-- JavaScript's `<=` on numbers (false whenever either side is NaN). -/
def jsLe : JSNum → JSNum → Bool
  | .nan, _ => false
  | _, .nan => false
  | .negInf, _ => true
  | _, .posInf => true
  | .posInf, _ => false
  | .fin _, .negInf => false
  | .fin a, .fin b => decide (a ≤ b)

/-- JavaScript's `<` on numbers (false whenever either side is NaN). -/
def jsLt : JSNum → JSNum → Bool
  | .nan, _ => false
  | _, .nan => false
  | .posInf, _ => false
  | _, .negInf => false
  | .negInf, _ => true
  | .fin _, .posInf => true
  | .fin a, .fin b => decide (a < b)

/-- JavaScript's `+` on numbers. -/
def add : JSNum → JSNum → JSNum
  | .nan, _ => .nan
  | _, .nan => .nan
  | .posInf, .negInf => .nan
  | .negInf, .posInf => .nan
  | .posInf, _ => .posInf
  | _, .posInf => .posInf
  | .negInf, _ => .negInf
  | _, .negInf => .negInf
  | .fin a, .fin b => .fin (a + b)

end JSNum

/-- A loosely typed JavaScript payload value, as far as the handlers
inspect one: a string, a number, a boolean, undefined or null. -/
inductive JSVal where
  | str (s : String)
  | num (n : JSNum)
  | boolean (b : Bool)
  | undefined
  | null
deriving DecidableEq

namespace JSVal

/-- JavaScript truthiness of a payload value. -/
def jsTruthy : JSVal → Bool
  | .str s => !(s == "")
  | .num (.fin q) => !(q == 0)
  | .num .nan => false
  | .num _ => true
  | .boolean b => b
  | .undefined => false
  | .null => false

/-- The underlying string of a value known to be a string ("" otherwise). -/
def asString : JSVal → String
  | .str s => s
  | _ => ""

/-- The underlying boolean of a value known to be a boolean. -/
def asBool : JSVal → Bool
  | .boolean b => b
  | _ => false

/-- The underlying number of a value known to be a number. -/
def asNum : JSVal → JSNum
  | .num n => n
  | _ => .nan

end JSVal

/-- JavaScript's String.prototype.trim: strip whitespace from both ends
(defined over the character list so that it evaluates by kernel reduction). -/
def jsTrim (s : String) : String :=
  ⟨((s.data.dropWhile fun c => c.isWhitespace).reverse.dropWhile fun c => c.isWhitespace).reverse⟩

/-- JavaScript's s.replace(/c/g, r) for a single-character pattern c
(defined over the character list so that it evaluates by kernel reduction). -/
def replaceAllChar (s : String) (c : Char) (r : String) : String :=
  ⟨s.data.foldr (fun ch acc => if ch = c then r.data ++ acc else ch :: acc) []⟩

/-- `validateString` from src/server.js: the value must be a string whose
trimmed length lies within [minLength, maxLength]. -/
def validateString (v : JSVal) (minLength : Nat := 1) (maxLength : Nat := 500) : Bool :=
  match v with
  | .str s =>
      decide (minLength ≤ (jsTrim s).length) && decide ((jsTrim s).length ≤ maxLength)
  | _ => false

/-- `validateNumber` from src/server.js: typeof number, not NaN, and within
[min, max] under JavaScript comparison (defaults min = 0, max = Infinity). -/
def validateNumber (v : JSVal) (min : JSNum := .fin 0) (max : JSNum := .posInf) : Bool :=
  match v with
  | .num n => !n.isNaN && JSNum.jsLe min n && JSNum.jsLe n max
  | _ => false

/-- `validateBoolean` from src/server.js. -/
def validateBoolean (v : JSVal) : Bool :=
  match v with
  | .boolean _ => true
  | _ => false

/-- `sanitizeHtml` from src/server.js: HTML-entity escaping of
the characters amp, lt, gt, double quote, apostrophe and slash. -/
def sanitizeHtml (v : JSVal) : String :=
  match v with
  | .str s =>
      replaceAllChar (replaceAllChar (replaceAllChar (replaceAllChar (replaceAllChar
        (replaceAllChar s '&' "&amp;") '<' "&lt;") '>' "&gt;")
        '\x22' "&quot;") '\x27' "&#x27;") '/' "&#x2F;"
  | _ => ""

/-- The video payload destructured by play-video / add-to-queue:
{id, title, thumbnail, artist, source}, each field an arbitrary JS value. -/
structure Video where
  id : JSVal
  title : JSVal
  thumbnail : JSVal
  artist : JSVal
  source : JSVal
deriving DecidableEq

/-- `validateVideoData` from src/server.js. -/
def validateVideoData (d : Video) : Bool :=
  validateString d.id 1 100 &&
  validateString d.title 1 200 &&
  (d.source == JSVal.str "youtube") &&
  (!d.thumbnail.jsTruthy || validateString d.thumbnail 1 500) &&
  (!d.artist.jsTruthy || validateString d.artist 1 100)

/-- One entry of room.users: {id: socket.id, name: userName}. -/
structure User where
  id : String
  name : String
deriving DecidableEq

/-- One entry of room.queue: the video payload plus addedBy (the sender's
userName, which is null when the sender never joined a room). -/
structure QueueEntry where
  video : Video
  addedBy : Option String
deriving DecidableEq

/-- A room object as created by /api/create-room. Timestamps (Date.now()
values) are rationals counting milliseconds; `currentTime` is a JS number
since it stores whatever number a client reported. `warningsSent` starts
out absent (falsy), modelled as false. -/
structure Room where
  id : String
  users : List User
  currentVideo : Option Video
  isPlaying : Bool
  currentTime : JSNum
  lastUpdate : ℚ
  lastActivity : ℚ
  queue : List QueueEntry
  host : Option String
  warningsSent : Bool
deriving DecidableEq

/-- The room object placed in the registry by /api/create-room. -/
def createRoom (roomId : String) (now : ℚ) : Room :=
  { id := roomId
    users := []
    currentVideo := none
    isPlaying := false
    currentTime := .fin 0
    lastUpdate := now
    lastActivity := now
    queue := []
    host := none
    warningsSent := false }

/-- `updateRoomActivity` from src/server.js (the room is known to exist):
it bumps lastActivity and touches nothing else. -/
def updateRoomActivity (room : Room) (now : ℚ) : Room :=
  { room with lastActivity := now }

/-- Delivery scope of an emitted socket event. -/
inductive Scope where
  | sender
  | room
  | roomExceptSender
  | toSocket (id : String)
deriving DecidableEq

/-- The payloads of the socket events the handlers emit. -/
inductive EmitEv where
  | error (message : String)
  | roomState (roomId : String) (users : List User) (currentVideo : Option Video)
      (isPlaying : Bool) (currentTime : JSNum) (queue : List QueueEntry) (isHost : Bool)
  | userJoined (id : String) (name : String)
  | videoChanged (video : Video) (isPlaying : Bool) (currentTime : JSNum)
  | playStateChanged (isPlaying : Bool) (currentTime : JSNum)
  | seeked (currentTime : JSNum)
  | syncResponse (currentTime : JSNum) (isPlaying : Bool)
  | queueUpdated (queue : List QueueEntry)
  | chatMessage (user : Option String) (message : String) (timestamp : ℚ)
  | userLeft (id : String) (name : Option String)
  | becameHost
  | inactivityWarning (message : String)
  | roomClosed (message : String)
deriving DecidableEq

/-- An emitted event with its delivery scope. -/
structure Out where
  scope : Scope
  ev : EmitEv
deriving DecidableEq

/-- Shorthand for the error reply every failed validation sends to the
originating socket only. -/
def errToSender (message : String) : Out :=
  ⟨.sender, .error message⟩

/-- The playback-clock projection the server computes on every read:
room.currentTime + (room.isPlaying ? (Date.now() - room.lastUpdate) / 1000 : 0). -/
def projectedTime (room : Room) (now : ℚ) : JSNum :=
  room.currentTime.add (if room.isPlaying then .fin ((now - room.lastUpdate) / 1000) else .fin 0)

/-- The join-room handler, from the point where the room has been found
(roomId already validated and present in the registry). `prevName` is the
connection's current userName closure variable, returned unchanged when the
join is rejected. Returns the new room, the emitted events in order, and
the connection's resulting userName. -/
def joinRoom (room : Room) (socketId : String) (name : JSVal) (prevName : Option String)
    (now : ℚ) : Room × List Out × Option String :=
  if name.jsTruthy && !validateString name 1 30 then
    (room, [errToSender "Invalid name (1-30 characters required)"], prevName)
  else
    let userName : String :=
      if name.jsTruthy then sanitizeHtml (.str (jsTrim name.asString))
      else "User-" ++ socketId.take 4
    let r1 := updateRoomActivity room now
    let r2 := { r1 with users := r1.users ++ [⟨socketId, userName⟩] }
    let r3 := if r2.host = none then { r2 with host := some socketId } else r2
    (r3,
     [⟨.sender, .roomState r3.id r3.users r3.currentVideo r3.isPlaying
        (projectedTime r3 now) r3.queue (decide (r3.host = some socketId))⟩,
      ⟨.roomExceptSender, .userJoined socketId userName⟩],
     some userName)

/-- The play-video handler (room found). -/
def playVideo (room : Room) (d : Video) (now : ℚ) : Room × List Out :=
  if !validateVideoData d then
    (room, [errToSender "Invalid video data"])
  else
    let r1 := updateRoomActivity room now
    ({ r1 with currentVideo := some d, isPlaying := true, currentTime := .fin 0,
               lastUpdate := now },
     [⟨.room, .videoChanged d true (.fin 0)⟩])

/-- The toggle-play handler (room found). -/
def togglePlay (room : Room) (isPlayingV currentTimeV : JSVal) (now : ℚ) : Room × List Out :=
  if !validateBoolean isPlayingV || !validateNumber currentTimeV (.fin 0) .posInf then
    (room, [errToSender "Invalid play state data"])
  else
    let r1 := updateRoomActivity room now
    ({ r1 with isPlaying := isPlayingV.asBool, currentTime := currentTimeV.asNum,
               lastUpdate := now },
     [⟨.roomExceptSender, .playStateChanged isPlayingV.asBool currentTimeV.asNum⟩])

/-- The seek handler (room found). -/
def seek (room : Room) (currentTimeV : JSVal) (now : ℚ) : Room × List Out :=
  if !validateNumber currentTimeV (.fin 0) .posInf then
    (room, [errToSender "Invalid seek time"])
  else
    let r1 := updateRoomActivity room now
    ({ r1 with currentTime := currentTimeV.asNum, lastUpdate := now },
     [⟨.roomExceptSender, .seeked currentTimeV.asNum⟩])

/-- The sync-request handler (room found). Emits nothing when there is no
current video; otherwise answers the sender with the projected position.
The room is returned as-is: the read never mutates. -/
def syncRequest (room : Room) (now : ℚ) : Room × List Out :=
  match room.currentVideo with
  | none => (room, [])
  | some _ => (room, [⟨.sender, .syncResponse (projectedTime room now) room.isPlaying⟩])

/-- The add-to-queue handler (room found). -/
def addToQueue (room : Room) (d : Video) (userName : Option String) (now : ℚ) :
    Room × List Out :=
  if !validateVideoData d then
    (room, [errToSender "Invalid video data for queue"])
  else if 50 ≤ room.queue.length then
    (room, [errToSender "Queue is full (max 50 items)"])
  else
    let r1 := updateRoomActivity room now
    let q := r1.queue ++ [⟨d, userName⟩]
    ({ r1 with queue := q }, [⟨.room, .queueUpdated q⟩])

/-- Array.prototype.splice's index conversion (ToIntegerOrInfinity plus
clamping): NaN becomes 0, the fraction is truncated toward zero, negative
values count back from the end (clamped at 0), and the result is clamped
to the array length. -/
def spliceIndex (n : JSNum) (len : Nat) : Nat :=
  match n with
  | .nan => 0
  | .posInf => len
  | .negInf => 0
  | .fin q =>
      let t : Int := if q < 0 then -⌊-q⌋ else ⌊q⌋
      if t < 0 then ((len : Int) + t).toNat else min t.toNat len

/-- Stands in for the JavaScript `undefined` that `[item] = queue.splice(i, 1)`
yields when the splice removed nothing (reachable in reorder-queue only with
an empty queue and NaN indices, which the guard lets through); the source
then splices that undefined value into the queue as an element. -/
def undefinedEntry : QueueEntry :=
  ⟨⟨.undefined, .undefined, .undefined, .undefined, .undefined⟩, none⟩

/-- The reorder-queue handler (room found). The guard matches the source:
non-numbers, negative indices, and indices ≥ length are rejected — but the
comparisons are JavaScript comparisons, so NaN (typeof number, every
comparison false) passes the guard. The splice pair then removes the item
at fromIndex and re-inserts it at toIndex, each index going through
splice's ToIntegerOrInfinity conversion (NaN becomes 0). -/
def reorderQueue (room : Room) (fromIndex toIndex : JSVal) (now : ℚ) : Room × List Out :=
  match fromIndex, toIndex with
  | .num f, .num t =>
      if f.jsLt (.fin 0) || t.jsLt (.fin 0) ||
         JSNum.jsLe (.fin room.queue.length) f ||
         JSNum.jsLe (.fin room.queue.length) t then
        (room, [errToSender "Invalid queue reorder indices"])
      else
        let r1 := updateRoomActivity room now
        let fi := spliceIndex f r1.queue.length
        let item := (r1.queue.get? fi).getD undefinedEntry
        let q1 := r1.queue.eraseIdx fi
        let q := q1.insertIdx (spliceIndex t q1.length) item
        ({ r1 with queue := q }, [⟨.room, .queueUpdated q⟩])
  | _, _ => (room, [errToSender "Invalid queue reorder indices"])

/-- The play-next handler (room found). Note that, unlike the other
mutating handlers, it never calls updateRoomActivity. -/
def playNext (room : Room) (now : ℚ) : Room × List Out :=
  match room.queue with
  | [] => (room, [])
  | next :: rest =>
      ({ room with currentVideo := some next.video, isPlaying := true,
                   currentTime := .fin 0, lastUpdate := now, queue := rest },
       [⟨.room, .videoChanged next.video true (.fin 0)⟩,
        ⟨.room, .queueUpdated rest⟩])

/-- The chat-message handler (connection attached to this room). -/
def chatMessage (room : Room) (messageV : JSVal) (userName : Option String) (now : ℚ) :
    Room × List Out :=
  if !validateString messageV 1 500 then
    (room, [errToSender "Invalid chat message (1-500 characters required)"])
  else
    let r1 := updateRoomActivity room now
    (r1, [⟨.room, .chatMessage userName (sanitizeHtml (.str (jsTrim messageV.asString))) now⟩])

/-- The disconnect handler for a connection attached to this room. Removes
the user, transfers the host when the host left and someone remains, and
clears the host when the room becomes empty. Never bumps lastActivity. -/
def disconnect (room : Room) (socketId : String) (userName : Option String) :
    Room × List Out :=
  let users1 := room.users.filter (fun u => u.id != socketId)
  let r1 := { room with users := users1 }
  let step :=
    if room.host = some socketId ∧ 0 < users1.length then
      match users1 with
      | u :: _ => ({ r1 with host := some u.id }, [(⟨.toSocket u.id, .becameHost⟩ : Out)])
      | [] => (r1, [])
    else (r1, [])
  let r2 := step.1
  let r3 := if r2.users = [] then { r2 with host := none } else r2
  (r3, step.2 ++ [⟨.roomExceptSender, .userLeft socketId userName⟩])

/-- ROOM_INACTIVE_TIMEOUT, in milliseconds. -/
def ROOM_INACTIVE_TIMEOUT : ℚ := 2 * 60 * 60 * 1000

/-- INACTIVITY_WARNING_TIME, in milliseconds. -/
def INACTIVITY_WARNING_TIME : ℚ := 5 * 60 * 1000

/-- One room's share of the cleanup sweep: possibly emit the inactivity
warning (setting warningsSent), then delete the room (returning none)
once it has been inactive for the full timeout. -/
def sweepRoom (room : Room) (now : ℚ) : Option Room × List Out :=
  let inactiveDuration := now - room.lastActivity
  let step :=
    if ROOM_INACTIVE_TIMEOUT - INACTIVITY_WARNING_TIME ≤ inactiveDuration ∧
       inactiveDuration < ROOM_INACTIVE_TIMEOUT ∧ room.warningsSent = false then
      ({ room with warningsSent := true },
       [(⟨.room, .inactivityWarning "Room will be closed in 5 minutes due to inactivity"⟩ : Out)])
    else (room, [])
  if ROOM_INACTIVE_TIMEOUT ≤ inactiveDuration then
    (none, step.2 ++ [⟨.room, .roomClosed "Room closed due to inactivity"⟩])
  else
    (some step.1, step.2)

/-- The per-room record saveRooms serializes (participants, host and
warningsSent are not persisted). -/
structure PersistedRoom where
  id : String
  currentVideo : Option Video
  isPlaying : Bool
  currentTime : JSNum
  lastUpdate : ℚ
  lastActivity : ℚ
  queue : List QueueEntry
deriving DecidableEq

/-- One room's share of saveRooms. -/
def saveRoom (room : Room) : PersistedRoom :=
  { id := room.id
    currentVideo := room.currentVideo
    isPlaying := room.isPlaying
    currentTime := room.currentTime
    lastUpdate := room.lastUpdate
    lastActivity := room.lastActivity
    queue := room.queue }

/-- JSON.stringify followed by JSON.parse on one object-property value:
strings, booleans, null and finite numbers survive, non-finite numbers
(NaN, ±Infinity) become null, and an undefined property is dropped by
stringify and reads back as undefined after parse. -/
def jsonVal : JSVal → JSVal
  | .num .nan => .null
  | .num .posInf => .null
  | .num .negInf => .null
  | v => v

/-- The JSON image of a stored video object (field by field). -/
def jsonVideo (v : Video) : Video :=
  ⟨jsonVal v.id, jsonVal v.title, jsonVal v.thumbnail, jsonVal v.artist, jsonVal v.source⟩

/-- The JSON image of a stored queue entry (addedBy is a string or null,
which JSON preserves). -/
def jsonEntry (e : QueueEntry) : QueueEntry :=
  ⟨jsonVideo e.video, e.addedBy⟩

/-- The JSON image of a bare JS number value: finite numbers survive,
NaN and ±Infinity are serialized as null. -/
def jsonOfJSNum (n : JSNum) : JSVal :=
  match n with
  | .fin q => .num (.fin q)
  | _ => .null

/-- A persisted room record as it comes back from JSON.parse: currentTime
was a bare number in memory, so after the JSON round trip it is either a
finite number or null. -/
structure StoredRoom where
  id : String
  currentVideo : Option Video
  isPlaying : Bool
  currentTime : JSVal
  lastUpdate : ℚ
  lastActivity : ℚ
  queue : List QueueEntry
deriving DecidableEq

/-- The JSON.stringify (write) / JSON.parse (read) round trip that sits
between saveRooms and loadRooms. Timestamps come from Date.now() and are
always finite. -/
def stringifyParseRoom (r : PersistedRoom) : StoredRoom :=
  { id := r.id
    currentVideo := r.currentVideo.map jsonVideo
    isPlaying := r.isPlaying
    currentTime := jsonOfJSNum r.currentTime
    lastUpdate := r.lastUpdate
    lastActivity := r.lastActivity
    queue := r.queue.map jsonEntry }

/-- The room object loadRooms puts back into the registry: the parsed
record spread together with empty users and a null host. Its currentTime
can be null (where a non-finite number was stored), which the in-memory
`Room` type cannot represent, hence this dedicated structure. -/
structure RestoredRoom where
  id : String
  users : List User
  currentVideo : Option Video
  isPlaying : Bool
  currentTime : JSVal
  lastUpdate : ℚ
  lastActivity : ℚ
  queue : List QueueEntry
  host : Option String
  warningsSent : Bool
deriving DecidableEq

/-- One room's share of loadRooms: admitted only when its persisted
lastActivity is newer than now minus the 2-hour TTL; the restored room has
no users and no host, and warningsSent starts out absent (falsy). -/
def loadRoom (r : StoredRoom) (now : ℚ) : Option RestoredRoom :=
  if now - 2 * 60 * 60 * 1000 < r.lastActivity then
    some { id := r.id
           users := []
           currentVideo := r.currentVideo
           isPlaying := r.isPlaying
           currentTime := r.currentTime
           lastUpdate := r.lastUpdate
           lastActivity := r.lastActivity
           queue := r.queue
           host := none
           warningsSent := false }
  else none

/-- The host-membership invariant: a null host means an empty room, and a
non-null host is the id of a current participant. -/
def hostInv (room : Room) : Prop :=
  match room.host with
  | none => room.users = []
  | some h => h ∈ room.users.map User.id

/-- A membership event: a join-room or a disconnect, by some socket. -/
inductive MEvent where
  | join (socketId : String) (name : JSVal)
  | leave (socketId : String)
deriving DecidableEq

/-- Apply one membership event to a room through the actual handlers. -/
def applyMEvent (now : ℚ) (room : Room) (e : MEvent) : Room :=
  match e with
  | .join socketId name => (joinRoom room socketId name none now).1
  | .leave socketId => (disconnect room socketId none).1

/-- A valid video payload used as a concrete test vector. -/
def vidW : Video :=
  ⟨.str "abc", .str "Song", .undefined, .undefined, .str "youtube"⟩

/-- A queue entry holding `vidW`. -/
def entryW : QueueEntry := ⟨vidW, some "Alice"⟩

/-- An invalid video payload (every field undefined). -/
def vidBad : Video := ⟨.undefined, .undefined, .undefined, .undefined, .undefined⟩

/-- A concrete one-user room, currently playing `vidW` at position 3s. -/
def roomW : Room :=
  { id := "room0001"
    users := [⟨"sockA", "Alice"⟩]
    currentVideo := some vidW
    isPlaying := true
    currentTime := .fin 3
    lastUpdate := 10000
    lastActivity := 10000
    queue := [entryW]
    host := some "sockA"
    warningsSent := false }

/-- `roomW` with its queue filled to the 50-entry bound. -/
def roomFull : Room := { roomW with queue := List.replicate 50 entryW }

/-- Four distinguishable queue entries. -/
def entA : QueueEntry := ⟨{ vidW with title := .str "A" }, some "Alice"⟩

/-- Second of the four distinguishable queue entries. -/
def entB : QueueEntry := ⟨{ vidW with title := .str "B" }, some "Alice"⟩

/-- Third of the four distinguishable queue entries. -/
def entC : QueueEntry := ⟨{ vidW with title := .str "C" }, some "Alice"⟩

/-- Fourth of the four distinguishable queue entries. -/
def entD : QueueEntry := ⟨{ vidW with title := .str "D" }, some "Alice"⟩

/-- `roomW` with the queue [A, B, C, D]. -/
def roomABCD : Room := { roomW with queue := [entA, entB, entC, entD] }

/-- A room last active at time 0, with a non-empty queue. -/
def roomC4 : Room := { roomW with lastUpdate := 0, lastActivity := 0 }

/-- A fresh room created at time 0 (for the inactivity-warning scenario). -/
def roomC5 : Room := createRoom "roomC5id" 0

/-- `roomC5` after the sweep at minute 116 has sent its warning. -/
def roomC5b : Room := ((sweepRoom roomC5 (116 * 60 * 1000)).1).getD (createRoom "" 0)

/-- `roomC5b` after activity resumed at minute 117. -/
def roomC5c : Room := updateRoomActivity roomC5b (117 * 60 * 1000)

/-- `roomW` after the accepted seek to Infinity (the C6 scenario): a
reachable room whose stored position is the non-finite number Infinity. -/
def roomInf : Room := (seek roomW (.num .posInf) 20000).1

/-! ## Theorems -/

/-- Splice's index conversion on a (cast) natural number clamps it to the
array length. -/
theorem spliceIndex_natCast (n len : ℕ) : spliceIndex (.fin (n : ℚ)) len = min n len := by
  have h1 : ¬((n : ℚ) < 0) := not_lt.mpr (Nat.cast_nonneg n)
  simp only [spliceIndex]
  rw [show (if (n : ℚ) < 0 then -⌊-(n : ℚ)⌋ else ⌊(n : ℚ)⌋) = (n : ℤ) from by
    rw [if_neg h1, Int.floor_natCast]]
  rw [if_neg (by simp)]
  simp

/-- The reorder guard evaluates to false on in-range natural indices. -/
theorem reorder_guard_false (len fi ti : ℕ) (hf : fi < len) (ht : ti < len) :
    (JSNum.jsLt (.fin (fi : ℚ)) (.fin 0) || JSNum.jsLt (.fin (ti : ℚ)) (.fin 0) ||
        JSNum.jsLe (.fin (len : ℚ)) (.fin (fi : ℚ)) ||
        JSNum.jsLe (.fin (len : ℚ)) (.fin (ti : ℚ))) = false := by
  simp only [JSNum.jsLt, JSNum.jsLe, Bool.or_eq_false_iff, decide_eq_false_iff_not, not_lt,
    not_le]
  exact ⟨⟨⟨Nat.cast_nonneg fi, Nat.cast_nonneg ti⟩, by exact_mod_cast hf⟩, by exact_mod_cast ht⟩

/-- On a playing room, projecting at `lastUpdate + 1000 * d` (d seconds
later) yields the stored position plus d; on a paused room it yields the
stored position. -/
theorem projectedTime_shift (room : Room) (p d : ℚ) (hp : room.currentTime = .fin p) :
    projectedTime room (room.lastUpdate + 1000 * d)
      = .fin (p + (if room.isPlaying then d else 0)) := by
  have harith : (room.lastUpdate + 1000 * d - room.lastUpdate) / 1000 = d := by ring
  unfold projectedTime
  rw [hp]
  cases hplay : room.isPlaying
  · simp [JSNum.add]
  · simp [JSNum.add, harith]

/-- C1: for every session state with position ≥ 0 and every elapsed Δ ≥ 0
(seconds), the projection read at time lastUpdate + Δ — the value served by
the sync-response and by the join reply's room-state — equals position + Δ
while playing and position while paused, and the read leaves the stored
state untouched. -/
theorem C1_projection (room : Room) (p d : ℚ) (hp : room.currentTime = .fin p)
    (hp0 : 0 ≤ p) (hd : 0 ≤ d) :
    projectedTime room (room.lastUpdate + 1000 * d)
        = .fin (p + (if room.isPlaying then d else 0))
      ∧ (syncRequest room (room.lastUpdate + 1000 * d)).1 = room
      ∧ (∀ v, room.currentVideo = some v →
          (syncRequest room (room.lastUpdate + 1000 * d)).2
            = [⟨.sender, .syncResponse (.fin (p + (if room.isPlaying then d else 0)))
                  room.isPlaying⟩])
      ∧ (∀ socketId prevName,
          (joinRoom room socketId .undefined prevName (room.lastUpdate + 1000 * d)).2.1.head?
            = some ⟨.sender,
                .roomState room.id (room.users ++ [⟨socketId, "User-" ++ socketId.take 4⟩])
                  room.currentVideo room.isPlaying
                  (.fin (p + (if room.isPlaying then d else 0))) room.queue
                  (decide ((if room.host = none then some socketId else room.host)
                     = some socketId))⟩) := by
  have hproj := projectedTime_shift room p d hp
  refine ⟨hproj, ?_, ?_, ?_⟩
  · unfold syncRequest
    cases room.currentVideo <;> simp
  · intro v hv
    unfold syncRequest
    rw [hv, ← hproj]
  · intro socketId prevName
    unfold joinRoom
    simp only [JSVal.jsTruthy, Bool.false_and, if_neg (by simp : ¬(false = true))]
    have hproj2 : ∀ r3 : Room, r3.currentTime = room.currentTime →
        r3.isPlaying = room.isPlaying → r3.lastUpdate = room.lastUpdate →
        projectedTime r3 (room.lastUpdate + 1000 * d)
          = .fin (p + (if room.isPlaying then d else 0)) := by
      intro r3 h1 h2 h3
      unfold projectedTime
      rw [h1, h2, h3, hp]
      cases hplay : room.isPlaying
      · simp [JSNum.add]
      · simp [JSNum.add]
    split
    · rename_i hhost
      simp_all [updateRoomActivity, hproj2, projectedTime, JSNum.add]
    · rename_i hhost
      simp_all [updateRoomActivity, projectedTime, JSNum.add]

/-- C1 witness at a concrete playing room, position 3s, Δ = 2s. -/
theorem C1_projection_witness :
    projectedTime roomW (roomW.lastUpdate + 1000 * 2)
        = .fin (3 + (if roomW.isPlaying then 2 else 0))
      ∧ (syncRequest roomW (roomW.lastUpdate + 1000 * 2)).1 = roomW :=
  ⟨(C1_projection roomW 3 2 rfl (by norm_num) (by norm_num)).1,
   (C1_projection roomW 3 2 rfl (by norm_num) (by norm_num)).2.1⟩

/-- A join through the join-room handler preserves the host invariant. -/
theorem hostInv_join (room : Room) (h : hostInv room) (socketId : String) (name : JSVal)
    (prevName : Option String) (now : ℚ) :
    hostInv (joinRoom room socketId name prevName now).1 := by
  unfold joinRoom
  split
  · exact h
  · dsimp only
    cases hh : room.host with
    | none =>
      have husers : room.users = [] := by simpa [hostInv, hh] using h
      simp [hostInv, updateRoomActivity, hh, husers]
    | some h0 =>
      have hmem : h0 ∈ room.users.map User.id := by simpa [hostInv, hh] using h
      simp [hostInv, updateRoomActivity, hh, hmem]

/-- A disconnect through the disconnect handler preserves the host invariant. -/
theorem hostInv_leave (room : Room) (h : hostInv room) (socketId : String)
    (userName : Option String) :
    hostInv (disconnect room socketId userName).1 := by
  unfold disconnect
  dsimp only
  split
  · rename_i hcond
    obtain ⟨hhost, hlen⟩ := hcond
    cases husers1 : room.users.filter (fun u => u.id != socketId) with
    | nil => simp [husers1] at hlen
    | cons u0 rest =>
      simp only [husers1]
      simp [hostInv]
  · rename_i hcond
    by_cases hempty : room.users.filter (fun u => u.id != socketId) = []
    · simp [hostInv, hempty]
    · simp only [if_neg hempty]
      cases hh : room.host with
      | none =>
        have husers : room.users = [] := by simpa [hostInv, hh] using h
        exact absurd (by simp [husers]) hempty
      | some h0 =>
        have hmem : h0 ∈ room.users.map User.id := by simpa [hostInv, hh] using h
        have hne : h0 ≠ socketId := by
          intro heq
          apply hcond
          refine ⟨by rw [hh, heq], ?_⟩
          cases hu : room.users.filter (fun u => u.id != socketId) with
          | nil => exact absurd hu hempty
          | cons a l => simp [hu]
        simp only [hostInv, hh]
        obtain ⟨x, hx, hxid⟩ := List.mem_map.mp hmem
        refine List.mem_map.mpr ⟨x, ?_, hxid⟩
        refine List.mem_filter.mpr ⟨hx, ?_⟩
        simp [hxid, hne]

/-- C2: from any room satisfying the host invariant (in particular a fresh
or reloaded room), after any sequence of join and disconnect events the
host is null iff the participant list is empty, and otherwise the host is
the connection id of a current participant. -/
theorem C2_host_invariant (room : Room) (h : hostInv room) (evs : List MEvent) (now : ℚ) :
    ((evs.foldl (applyMEvent now) room).host = none
        ↔ (evs.foldl (applyMEvent now) room).users = [])
      ∧ ∀ h0, (evs.foldl (applyMEvent now) room).host = some h0 →
          h0 ∈ (evs.foldl (applyMEvent now) room).users.map User.id := by
  have main : ∀ (l : List MEvent) (r : Room), hostInv r →
      hostInv (l.foldl (applyMEvent now) r) := by
    intro l
    induction l with
    | nil => intro r hr; exact hr
    | cons e rest ih =>
      intro r hr
      refine ih _ ?_
      cases e with
      | join socketId name => exact hostInv_join r hr socketId name none now
      | leave socketId => exact hostInv_leave r hr socketId none
  have hfin := main evs room h
  set final := evs.foldl (applyMEvent now) room with hfinal
  constructor
  · constructor
    · intro hnone
      simpa [hostInv, hnone] using hfin
    · intro hemp
      cases hh : final.host with
      | none => rfl
      | some h0 =>
        have : h0 ∈ final.users.map User.id := by simpa [hostInv, hh] using hfin
        rw [hemp] at this
        simp at this
  · intro h0 hh
    simpa [hostInv, hh] using hfin

/-- C2 witness: a fresh room, two joins and a leave of the first joiner. -/
theorem C2_host_invariant_witness :
    (([MEvent.join "sockAAAA" .undefined, MEvent.join "sockBBBB" .undefined,
        MEvent.leave "sockAAAA"].foldl (applyMEvent 5) (createRoom "room0002" 0)).host = none
      ↔ ([MEvent.join "sockAAAA" .undefined, MEvent.join "sockBBBB" .undefined,
        MEvent.leave "sockAAAA"].foldl (applyMEvent 5) (createRoom "room0002" 0)).users = []) :=
  (C2_host_invariant (createRoom "room0002" 0) rfl
    [MEvent.join "sockAAAA" .undefined, MEvent.join "sockBBBB" .undefined,
     MEvent.leave "sockAAAA"] 5).1

/-- C3: the queue bound. An enqueue never pushes the length past 50; an
enqueue on a 50-entry queue is rejected with the queue-full error to the
sender and leaves the room (queue included) exactly unchanged; an enqueue
of valid video data on a queue below 50 appends the entry at the end. -/
theorem C3_queue_bound (room : Room) (d : Video) (userName : Option String) (now : ℚ) :
    (room.queue.length ≤ 50 → (addToQueue room d userName now).1.queue.length ≤ 50)
      ∧ (room.queue.length = 50 →
          (addToQueue room d userName now).1 = room
            ∧ (validateVideoData d = true →
                (addToQueue room d userName now).2
                  = [errToSender "Queue is full (max 50 items)"]))
      ∧ (validateVideoData d = true → room.queue.length < 50 →
          (addToQueue room d userName now).1.queue = room.queue ++ [⟨d, userName⟩]
            ∧ (addToQueue room d userName now).2
                = [⟨.room, .queueUpdated (room.queue ++ [⟨d, userName⟩])⟩]) := by
  unfold addToQueue
  refine ⟨?_, ?_, ?_⟩
  · intro hle
    split
    · exact hle
    · split
      · exact hle
      · rename_i hval hfull
        simp only [updateRoomActivity]
        simp only [not_le] at hfull
        simp [List.length_append]
        omega
  · intro h50
    constructor
    · split
      · rfl
      · split
        · rfl
        · rename_i hval hfull
          exact absurd (by omega : 50 ≤ room.queue.length) hfull
    · intro hval
      rw [if_neg (by simp [hval])]
      rw [if_pos (by omega : 50 ≤ room.queue.length)]
  · intro hval hlt
    rw [if_neg (by simp [hval]), if_neg (by omega : ¬ 50 ≤ room.queue.length)]
    exact ⟨rfl, rfl⟩

/-- C3 witness: the full room rejects the enqueue unchanged, and the
one-entry room appends. -/
theorem C3_queue_bound_witness :
    ((addToQueue roomFull vidW (some "Bob") 20000).1 = roomFull
        ∧ (addToQueue roomFull vidW (some "Bob") 20000).2
            = [errToSender "Queue is full (max 50 items)"])
      ∧ (addToQueue roomW vidW (some "Bob") 20000).1.queue
          = roomW.queue ++ [⟨vidW, some "Bob"⟩] :=
  ⟨⟨((C3_queue_bound roomFull vidW (some "Bob") 20000).2.1 (by
      simp [roomFull, List.length_replicate])).1,
    ((C3_queue_bound roomFull vidW (some "Bob") 20000).2.1 (by
      simp [roomFull, List.length_replicate])).2 (by decide)⟩,
   ((C3_queue_bound roomW vidW (some "Bob") 20000).2.2 (by decide) (by
      simp [roomW])).1⟩

/-- C4 counterexample: advancing the queue (play-next) at time 5000 on a
room whose lastActivity is 0 performs a real transition (the current video
changes) yet leaves lastActivity at 0 rather than bumping it to the current
time; so not every transition bumps lastActivity. -/
theorem C4_counterexample :
    (playNext roomC4 5000).1.currentVideo = some entryW.video
      ∧ (playNext roomC4 5000).1.lastActivity = 0
      ∧ (0 : ℚ) ≠ 5000 :=
  ⟨rfl, rfl, by norm_num⟩

/-- C4 amended: set-item, toggle-play, seek, enqueue, reorder, chat and
join all bump lastActivity to the current time as part of handling the
event, but advance (play-next) and leave (disconnect) do not touch it. -/
theorem C4_activity_bumps (room : Room) (now : ℚ) :
    (∀ d, validateVideoData d = true → (playVideo room d now).1.lastActivity = now)
      ∧ (∀ bv tv, validateBoolean bv = true → validateNumber tv (.fin 0) .posInf = true →
          (togglePlay room bv tv now).1.lastActivity = now)
      ∧ (∀ tv, validateNumber tv (.fin 0) .posInf = true →
          (seek room tv now).1.lastActivity = now)
      ∧ (∀ d userName, validateVideoData d = true → room.queue.length < 50 →
          (addToQueue room d userName now).1.lastActivity = now)
      ∧ (∀ fi ti : ℕ, fi < room.queue.length → ti < room.queue.length →
          (reorderQueue room (.num (.fin fi)) (.num (.fin ti)) now).1.lastActivity = now)
      ∧ (∀ m, validateString m 1 500 = true →
          (chatMessage room m none now).1.lastActivity = now)
      ∧ (∀ socketId name prevName, (name.jsTruthy && !validateString name 1 30) = false →
          (joinRoom room socketId name prevName now).1.lastActivity = now)
      ∧ (playNext room now).1.lastActivity = room.lastActivity
      ∧ (∀ socketId userName,
          (disconnect room socketId userName).1.lastActivity = room.lastActivity) := by
  refine ⟨?_, ?_, ?_, ?_, ?_, ?_, ?_, ?_, ?_⟩
  · intro d hval
    unfold playVideo
    rw [if_neg (by simp [hval])]
    rfl
  · intro bv tv hb hn
    unfold togglePlay
    rw [if_neg (by simp [hb, hn])]
    rfl
  · intro tv hn
    unfold seek
    rw [if_neg (by simp [hn])]
    rfl
  · intro d userName hval hlt
    unfold addToQueue
    rw [if_neg (by simp [hval]), if_neg (by omega)]
    rfl
  · intro fi ti hf ht
    simp only [reorderQueue]
    rw [if_neg (by rw [reorder_guard_false room.queue.length fi ti hf ht]; simp)]
    rfl
  · intro m hm
    unfold chatMessage
    rw [if_neg (by simp [hm])]
    rfl
  · intro socketId name prevName hok
    unfold joinRoom
    rw [if_neg (by simp [hok])]
    dsimp only
    split <;> rfl
  · unfold playNext
    cases room.queue <;> rfl
  · intro socketId userName
    unfold disconnect
    dsimp only
    split
    · split
      · split <;> rfl
      · split <;> rfl
    · split <;> rfl

/-- C4 amended witness: concrete bump on seek and no bump on play-next. -/
theorem C4_activity_bumps_witness :
    (seek roomW (.num (.fin 7)) 20000).1.lastActivity = 20000
      ∧ (playNext roomW 20000).1.lastActivity = roomW.lastActivity :=
  ⟨(C4_activity_bumps roomW 20000).2.2.1 (.num (.fin 7)) (by decide),
   (C4_activity_bumps roomW 20000).2.2.2.2.2.2.2.1⟩

/-- C5: the code-level behaviour at the claim's failing scenario. A fresh
room (lastActivity = 0) is warned by the sweep at minute 116 and its
warningsSent flag becomes true; when activity resumes at minute 117,
updateRoomActivity advances lastActivity but leaves warningsSent true —
it is never reset anywhere — so the sweep at minute 233, although the
room again lies inside the warning band of a brand-new inactivity window,
emits no warning at all. The claim (and the spec) require the flag to
reset when lastActivity advances; the code does not implement any reset. -/
theorem C5_warning_reset_bug :
    (sweepRoom roomC5 (116 * 60 * 1000)).2
        = [⟨.room, .inactivityWarning "Room will be closed in 5 minutes due to inactivity"⟩]
      ∧ roomC5b.warningsSent = true
      ∧ roomC5c.lastActivity = 117 * 60 * 1000
      ∧ roomC5c.warningsSent = true
      ∧ ROOM_INACTIVE_TIMEOUT - INACTIVITY_WARNING_TIME
          ≤ (233 * 60 * 1000 : ℚ) - roomC5c.lastActivity
      ∧ (233 * 60 * 1000 : ℚ) - roomC5c.lastActivity < ROOM_INACTIVE_TIMEOUT
      ∧ (sweepRoom roomC5c (233 * 60 * 1000)).2 = [] := by
  have h1 : sweepRoom roomC5 (116 * 60 * 1000)
      = (some { roomC5 with warningsSent := true },
         [⟨.room, .inactivityWarning "Room will be closed in 5 minutes due to inactivity"⟩]) := by
    norm_num [sweepRoom, roomC5, createRoom, ROOM_INACTIVE_TIMEOUT, INACTIVITY_WARNING_TIME]
  have hb : roomC5b = { roomC5 with warningsSent := true } := by
    unfold roomC5b
    rw [h1]
    rfl
  have hc : roomC5c = { roomC5 with lastActivity := 117 * 60 * 1000, warningsSent := true } := by
    unfold roomC5c
    rw [hb]
    rfl
  have h2 : (sweepRoom roomC5c (233 * 60 * 1000)).2 = [] := by
    rw [hc]
    norm_num [sweepRoom, roomC5, createRoom, ROOM_INACTIVE_TIMEOUT, INACTIVITY_WARNING_TIME]
  refine ⟨by rw [h1], by rw [hb], rfl, by rw [hc], ?_, ?_, h2⟩
  · rw [hc]
    norm_num [ROOM_INACTIVE_TIMEOUT, INACTIVITY_WARNING_TIME]
  · rw [hc]
    norm_num [ROOM_INACTIVE_TIMEOUT]

/-- C6 counterexample: validateNumber with its defaults accepts +Infinity
(the default max bound is itself Infinity and only NaN is filtered), so a
seek carrying Infinity is NOT rejected: it mutates the stored position to
Infinity and emits a seeked broadcast rather than an error. -/
theorem C6_counterexample :
    validateNumber (.num .posInf) (.fin 0) .posInf = true
      ∧ roomW.currentTime = .fin 3
      ∧ (seek roomW (.num .posInf) 20000).1.currentTime = .posInf
      ∧ (seek roomW (.num .posInf) 20000).2 = [⟨.roomExceptSender, .seeked .posInf⟩] := by
  refine ⟨rfl, rfl, rfl, rfl⟩

/-- C6 amended: a number accepted by validateNumber is a non-NaN number
lying within [min, max] under JavaScript comparison, with default min 0 —
so seek and toggle-play reject NaN and negative positions unchanged — but
the default max is +Infinity itself, which therefore passes the check. -/
theorem C6_validateNumber (v : JSVal) (mn mx : JSNum) (room : Room) (now : ℚ) (q : ℚ) :
    (validateNumber v mn mx = true →
        ∃ n, v = .num n ∧ n.isNaN = false ∧ mn.jsLe n = true ∧ n.jsLe mx = true)
      ∧ (q < 0 →
          seek room (.num (.fin q)) now = (room, [errToSender "Invalid seek time"]))
      ∧ seek room (.num .nan) now = (room, [errToSender "Invalid seek time"])
      ∧ (q < 0 → ∀ b, togglePlay room (.boolean b) (.num (.fin q)) now
            = (room, [errToSender "Invalid play state data"]))
      ∧ (∀ b, togglePlay room (.boolean b) (.num .nan) now
            = (room, [errToSender "Invalid play state data"]))
      ∧ validateNumber (.num .posInf) (.fin 0) .posInf = true := by
  refine ⟨?_, ?_, ?_, ?_, ?_, rfl⟩
  · intro hval
    cases v with
    | num n =>
        refine ⟨n, rfl, ?_, ?_, ?_⟩ <;>
          simp only [validateNumber, Bool.and_eq_true, Bool.not_eq_true'] at hval <;>
          simp [hval.1.1, hval.1.2, hval.2]
    | str s => simp [validateNumber] at hval
    | boolean b => simp [validateNumber] at hval
    | undefined => simp [validateNumber] at hval
    | null => simp [validateNumber] at hval
  · intro hq
    unfold seek
    rw [if_pos (by simp [validateNumber, JSNum.jsLe, JSNum.isNaN, not_le.mpr hq])]
  · unfold seek
    rw [if_pos (by simp [validateNumber, JSNum.isNaN])]
  · intro hq b
    unfold togglePlay
    rw [if_pos (by simp [validateNumber, validateBoolean, JSNum.jsLe, JSNum.isNaN,
      not_le.mpr hq])]
  · intro b
    unfold togglePlay
    rw [if_pos (by simp [validateNumber, validateBoolean, JSNum.isNaN])]

/-- C6 amended witness: a seek to −1 is rejected unchanged; Infinity
passes the validator. -/
theorem C6_validateNumber_witness :
    seek roomW (.num (.fin (-1))) 20000 = (roomW, [errToSender "Invalid seek time"])
      ∧ validateNumber (.num .posInf) (.fin 0) .posInf = true :=
  ⟨(C6_validateNumber (.num (.fin (-1))) (.fin 0) .posInf roomW 20000 (-1)).2.1
      (by norm_num),
   (C6_validateNumber (.num (.fin (-1))) (.fin 0) .posInf roomW 20000 (-1)).2.2.2.2.2⟩

/-- C7: every mutating handler that fails validation performs zero state
mutation and emits exactly one error event, delivered to the originating
connection only. Covers join-room (bad name), play-video, toggle-play,
seek, add-to-queue (bad data and full queue), reorder-queue (bad indices)
and chat-message. -/
theorem C7_rejected_mutations (room : Room) (now : ℚ) (userName : Option String) :
    (∀ socketId name prevName, (name.jsTruthy && !validateString name 1 30) = true →
        joinRoom room socketId name prevName now
          = (room, [errToSender "Invalid name (1-30 characters required)"], prevName))
      ∧ (∀ d, validateVideoData d = false →
          playVideo room d now = (room, [errToSender "Invalid video data"]))
      ∧ (∀ bv tv, (validateBoolean bv && validateNumber tv (.fin 0) .posInf) = false →
          togglePlay room bv tv now = (room, [errToSender "Invalid play state data"]))
      ∧ (∀ tv, validateNumber tv (.fin 0) .posInf = false →
          seek room tv now = (room, [errToSender "Invalid seek time"]))
      ∧ (∀ d, validateVideoData d = false →
          addToQueue room d userName now
            = (room, [errToSender "Invalid video data for queue"]))
      ∧ (∀ d, validateVideoData d = true → 50 ≤ room.queue.length →
          addToQueue room d userName now
            = (room, [errToSender "Queue is full (max 50 items)"]))
      ∧ (∀ f t : ℚ, f < 0 ∨ t < 0 ∨
            (room.queue.length : ℚ) ≤ f ∨ (room.queue.length : ℚ) ≤ t →
          reorderQueue room (.num (.fin f)) (.num (.fin t)) now
            = (room, [errToSender "Invalid queue reorder indices"]))
      ∧ (∀ m, validateString m 1 500 = false →
          chatMessage room m userName now
            = (room, [errToSender "Invalid chat message (1-500 characters required)"])) := by
  refine ⟨?_, ?_, ?_, ?_, ?_, ?_, ?_, ?_⟩
  · intro socketId name prevName hbad
    unfold joinRoom
    rw [if_pos hbad]
  · intro d hval
    unfold playVideo
    rw [if_pos (by simp [hval])]
  · intro bv tv hval
    unfold togglePlay
    rw [if_pos (by
      rcases Bool.and_eq_false_iff.mp hval with h | h <;> simp [h])]
  · intro tv hval
    unfold seek
    rw [if_pos (by simp [hval])]
  · intro d hval
    unfold addToQueue
    rw [if_pos (by simp [hval])]
  · intro d hval hfull
    unfold addToQueue
    rw [if_neg (by simp [hval]), if_pos hfull]
  · intro f t hbad
    simp only [reorderQueue]
    rw [if_pos (by
      simp only [JSNum.jsLt, JSNum.jsLe, Bool.or_eq_true, decide_eq_true_eq]
      tauto)]
  · intro m hval
    unfold chatMessage
    rw [if_pos (by simp [hval])]

/-- C7 witness: an empty chat message and a NaN seek are both rejected
with a single error to the sender and no state change. -/
theorem C7_rejected_mutations_witness :
    chatMessage roomW (.str "   ") (some "Alice") 20000
        = (roomW, [errToSender "Invalid chat message (1-500 characters required)"])
      ∧ seek roomW (.num .nan) 20000 = (roomW, [errToSender "Invalid seek time"]) :=
  ⟨(C7_rejected_mutations roomW 20000 (some "Alice")).2.2.2.2.2.2.2 (.str "   ")
      (by decide),
   (C7_rejected_mutations roomW 20000 (some "Alice")).2.2.2.1 (.num .nan) (by decide)⟩

/-- C8 counterexample: a reorder whose fromIndex is NaN — a number index
that does not lie in [0, queue.length) — is NOT rejected: every comparison
with NaN is false, so the source guard passes it through, and splice
truncates NaN to index 0. On the queue [A,B,C,D] with toIndex 2 the
handler therefore mutates the queue to [B,C,A,D] and broadcasts
queue-updated, with no error, refuting the claim's rejection clause. -/
theorem C8_counterexample :
    JSNum.nan.isNaN = true
      ∧ (reorderQueue roomABCD (.num .nan) (.num (.fin 2)) 20000).1.queue
          = [entB, entC, entA, entD]
      ∧ (reorderQueue roomABCD (.num .nan) (.num (.fin 2)) 20000).2
          = [⟨.room, .queueUpdated [entB, entC, entA, entD]⟩] := by
  have h2 : (2 : ℚ) = ((2 : ℕ) : ℚ) := by norm_num
  have hlen : roomABCD.queue.length = 4 := rfl
  have hguard : (JSNum.jsLt .nan (.fin 0) || JSNum.jsLt (.fin 2) (.fin 0) ||
      JSNum.jsLe (.fin (roomABCD.queue.length : ℚ)) .nan ||
      JSNum.jsLe (.fin (roomABCD.queue.length : ℚ)) (.fin 2)) = false := by
    simp only [JSNum.jsLt, JSNum.jsLe, hlen]
    norm_num
  have hsplice : spliceIndex (.fin 2) ((roomABCD.queue.eraseIdx 0).length) = 2 := by
    rw [h2, spliceIndex_natCast]
    rfl
  refine ⟨rfl, ?_, ?_⟩ <;>
    simp only [reorderQueue, updateRoomActivity] <;>
    rw [if_neg (by rw [hguard]; simp)] <;>
    simp only [spliceIndex, hsplice] <;>
    rfl

/-- C8 amended: reorder-queue with integer indices in [0, queue.length)
performs a stable single-item move — the item at fromIndex is removed and
re-inserted at toIndex, and removing it again from the result recovers
exactly the original queue minus that item, so all other entries keep
their relative order; [A,B,C,D] with (0,2) yields [B,C,A,D]. Non-number
indices, negative numbers, numbers ≥ length and ±Infinity are rejected
with one error to the sender and the queue exactly unchanged. NaN,
however, passes the guard (every JavaScript comparison with NaN is false)
and is spliced as index 0, mutating the queue with no error. -/
theorem C8_reorder_semantics (room : Room) (now : ℚ) :
    (∀ (r : Room) (a b c d : QueueEntry), r.queue = [a, b, c, d] →
        (reorderQueue r (.num (.fin 0)) (.num (.fin 2)) now).1.queue = [b, c, a, d])
      ∧ (∀ f t : JSVal, (∀ n, f ≠ .num n) →
          reorderQueue room f t now
            = (room, [errToSender "Invalid queue reorder indices"]))
      ∧ (∀ f t : JSVal, (∀ n, t ≠ .num n) →
          reorderQueue room f t now
            = (room, [errToSender "Invalid queue reorder indices"]))
      ∧ (∀ (q : ℚ) (t : JSVal), q < 0 →
          reorderQueue room (.num (.fin q)) t now
            = (room, [errToSender "Invalid queue reorder indices"]))
      ∧ (∀ (q : ℚ) (t : JSVal), (room.queue.length : ℚ) ≤ q →
          reorderQueue room (.num (.fin q)) t now
            = (room, [errToSender "Invalid queue reorder indices"]))
      ∧ (∀ (f : JSVal) (q : ℚ), q < 0 →
          reorderQueue room f (.num (.fin q)) now
            = (room, [errToSender "Invalid queue reorder indices"]))
      ∧ (∀ (f : JSVal) (q : ℚ), (room.queue.length : ℚ) ≤ q →
          reorderQueue room f (.num (.fin q)) now
            = (room, [errToSender "Invalid queue reorder indices"]))
      ∧ (∀ t, reorderQueue room (.num .posInf) t now
            = (room, [errToSender "Invalid queue reorder indices"]))
      ∧ (∀ f, reorderQueue room f (.num .posInf) now
            = (room, [errToSender "Invalid queue reorder indices"]))
      ∧ (∀ t, reorderQueue room (.num .negInf) t now
            = (room, [errToSender "Invalid queue reorder indices"]))
      ∧ (∀ f, reorderQueue room f (.num .negInf) now
            = (room, [errToSender "Invalid queue reorder indices"]))
      ∧ (∀ fi ti : ℕ, fi < room.queue.length → ti < room.queue.length →
          ∃ item, room.queue.get? fi = some item
            ∧ (reorderQueue room (.num (.fin fi)) (.num (.fin ti)) now).1.queue
                = (room.queue.eraseIdx fi).insertIdx ti item
            ∧ (reorderQueue room (.num (.fin fi)) (.num (.fin ti)) now).1.queue.eraseIdx ti
                = room.queue.eraseIdx fi
            ∧ (reorderQueue room (.num (.fin fi)) (.num (.fin ti)) now).2
                = [⟨.room, .queueUpdated ((room.queue.eraseIdx fi).insertIdx ti item)⟩])
      ∧ (∀ ti : ℕ, ti < room.queue.length →
          ∃ item, room.queue.get? 0 = some item
            ∧ (reorderQueue room (.num .nan) (.num (.fin ti)) now).1.queue
                = (room.queue.eraseIdx 0).insertIdx ti item
            ∧ (reorderQueue room (.num .nan) (.num (.fin ti)) now).2
                = [⟨.room, .queueUpdated ((room.queue.eraseIdx 0).insertIdx ti item)⟩]) := by
  have herase : ∀ (l : List QueueEntry) (i : ℕ), i < l.length →
      (l.eraseIdx i).length = l.length - 1 := by
    intro l i hi
    rw [List.length_eraseIdx]
    simp [hi]
  have hsplice_in : ∀ (n : ℕ) (l : List QueueEntry) (i : ℕ), i < l.length → n < l.length →
      spliceIndex (.fin (n : ℚ)) ((l.eraseIdx i).length) = n := by
    intro n l i hi hn
    rw [herase l i hi, spliceIndex_natCast]
    omega
  refine ⟨?_, ?_, ?_, ?_, ?_, ?_, ?_, ?_, ?_, ?_, ?_, ?_, ?_⟩
  · intro r a b c d hq
    have hs0 : spliceIndex (.fin 0) ([a, b, c, d] : List QueueEntry).length = 0 := by
      rw [show (0 : ℚ) = ((0 : ℕ) : ℚ) from by norm_num, spliceIndex_natCast]
      rfl
    have hs2 : spliceIndex (.fin 2)
        (([a, b, c, d] : List QueueEntry).eraseIdx 0).length = 2 := by
      rw [show (2 : ℚ) = ((2 : ℕ) : ℚ) from by norm_num, spliceIndex_natCast]
      rfl
    simp only [reorderQueue, updateRoomActivity]
    rw [if_neg (by
      simp only [hq, JSNum.jsLt, JSNum.jsLe, List.length_cons, List.length_nil,
        Bool.or_eq_true, decide_eq_true_eq]
      push_neg
      norm_num)]
    simp only [hq, hs0, hs2]
    simp [List.insertIdx_succ_cons, List.insertIdx_zero]
  · intro f t hf
    cases f with
    | num n => exact absurd rfl (hf n)
    | str s => rfl
    | boolean b => rfl
    | undefined => rfl
    | null => rfl
  · intro f t ht
    cases f with
    | num n =>
        cases t with
        | num m => exact absurd rfl (ht m)
        | str s => rfl
        | boolean b => rfl
        | undefined => rfl
        | null => rfl
    | str s => rfl
    | boolean b => rfl
    | undefined => rfl
    | null => rfl
  · intro q t hq
    cases t <;> try rfl
    simp only [reorderQueue]
    rw [if_pos (by simp [JSNum.jsLt, hq])]
  · intro q t hq
    cases t <;> try rfl
    simp only [reorderQueue]
    rw [if_pos (by simp [JSNum.jsLe, hq])]
  · intro f q hq
    cases f <;> try rfl
    simp only [reorderQueue]
    rw [if_pos (by simp [JSNum.jsLt, hq])]
  · intro f q hq
    cases f <;> try rfl
    simp only [reorderQueue]
    rw [if_pos (by simp [JSNum.jsLe, hq])]
  · intro t
    cases t <;> try rfl
    simp only [reorderQueue]
    rw [if_pos (by simp [JSNum.jsLe])]
  · intro f
    cases f <;> try rfl
    simp only [reorderQueue]
    rw [if_pos (by simp [JSNum.jsLe])]
  · intro t
    cases t <;> rfl
  · intro f
    cases f <;> try rfl
    simp only [reorderQueue]
    rw [if_pos (by simp [JSNum.jsLt])]
  · intro fi ti hf ht
    have hget : room.queue.get? fi = some (room.queue.get ⟨fi, hf⟩) :=
      List.get?_eq_get hf
    have hsi : spliceIndex (.fin (fi : ℚ)) room.queue.length = fi := by
      rw [spliceIndex_natCast]; omega
    have hred : reorderQueue room (.num (.fin fi)) (.num (.fin ti)) now
        = ({ updateRoomActivity room now with
             queue := (room.queue.eraseIdx fi).insertIdx ti (room.queue.get ⟨fi, hf⟩) },
           [⟨.room, .queueUpdated
              ((room.queue.eraseIdx fi).insertIdx ti (room.queue.get ⟨fi, hf⟩))⟩]) := by
      simp only [reorderQueue, updateRoomActivity]
      rw [if_neg (by rw [reorder_guard_false room.queue.length fi ti hf ht]; simp)]
      simp only [hsi, hsplice_in ti room.queue fi hf ht, hget, Option.getD_some]
    refine ⟨room.queue.get ⟨fi, hf⟩, hget, ?_, ?_, ?_⟩
    · rw [hred]
    · rw [hred]
      exact List.eraseIdx_insertIdx ti (room.queue.eraseIdx fi)
    · rw [hred]
  · intro ti ht
    have hlen : 0 < room.queue.length := by omega
    have hget : room.queue.get? 0 = some (room.queue.get ⟨0, hlen⟩) :=
      List.get?_eq_get hlen
    have hsi : spliceIndex .nan room.queue.length = 0 := rfl
    refine ⟨room.queue.get ⟨0, hlen⟩, hget, ?_, ?_⟩ <;>
      simp only [reorderQueue, updateRoomActivity] <;>
      rw [if_neg (by
        simp only [JSNum.jsLt, JSNum.jsLe, Bool.false_or, Bool.or_false,
          Bool.or_eq_true, decide_eq_true_eq]
        push_neg
        exact ⟨Nat.cast_nonneg ti, by exact_mod_cast ht⟩)] <;>
      simp only [hsi, hsplice_in ti room.queue 0 hlen ht, hget, Option.getD_some]

/-- C8 witness: the concrete in-range [A,B,C,D] reorder and a concrete
out-of-range (index 7) rejection. -/
theorem C8_reorder_semantics_witness :
    (reorderQueue roomABCD (.num (.fin 0)) (.num (.fin 2)) 20000).1.queue
        = [entB, entC, entA, entD]
      ∧ reorderQueue roomABCD (.num (.fin 7)) (.num (.fin 0)) 20000
          = (roomABCD, [errToSender "Invalid queue reorder indices"]) :=
  ⟨(C8_reorder_semantics roomABCD 20000).1 roomABCD entA entB entC entD rfl,
   (C8_reorder_semantics roomABCD 20000).2.2.2.2.1 7 (.num (.fin 0))
     (by norm_num [roomABCD])⟩

/-- C9 counterexample: a room whose stored position is Infinity —
reachable, since the seek handler accepts Infinity (the C6 scenario) —
does not survive the source's persistence round trip exactly: the record
passes through JSON.stringify/JSON.parse, which serializes the non-finite
number as null, so the reloaded session's position is null rather than
the persisted Infinity, refuting the exact-reproduction claim. -/
theorem C9_counterexample :
    roomInf.currentTime = .posInf
      ∧ (loadRoom (stringifyParseRoom (saveRoom roomInf)) 20001).map
          RestoredRoom.currentTime = some .null
      ∧ JSVal.null ≠ JSVal.num .posInf := by
  refine ⟨rfl, ?_, by simp⟩
  have hTTL : (20001 : ℚ) - 2 * 60 * 60 * 1000
      < (stringifyParseRoom (saveRoom roomInf)).lastActivity := by
    norm_num [stringifyParseRoom, saveRoom, roomInf, seek, roomW, updateRoomActivity,
      validateNumber, JSNum.isNaN, JSNum.jsLe]
  unfold loadRoom
  rw [if_pos hTTL]
  rfl

/-- C9 amended: persisting a session and reloading it within the TTL
window reproduces the session up to the JSON image of its fields: id,
isPlaying, timestamps, and every string, boolean, null and finite number
are reproduced exactly — so a session holding only finite numbers round
trips exactly — while a non-finite stored number (such as an Infinity
position admitted by the seek validation gap) is serialized as null; the
reloaded session always has an empty participant list and a null host,
and a snapshot whose lastActivity is older than the cutoff is not
admitted. -/
theorem C9_persistence_json (room : Room) (now : ℚ) :
    (now - 2 * 60 * 60 * 1000 < room.lastActivity →
        loadRoom (stringifyParseRoom (saveRoom room)) now
          = some { id := room.id
                   users := []
                   currentVideo := room.currentVideo.map jsonVideo
                   isPlaying := room.isPlaying
                   currentTime := jsonOfJSNum room.currentTime
                   lastUpdate := room.lastUpdate
                   lastActivity := room.lastActivity
                   queue := room.queue.map jsonEntry
                   host := none
                   warningsSent := false })
      ∧ (∀ p : ℚ, room.currentTime = .fin p →
          jsonOfJSNum room.currentTime = .num (.fin p))
      ∧ (room.currentTime = .posInf → jsonOfJSNum room.currentTime = .null)
      ∧ (room.lastActivity < now - 2 * 60 * 60 * 1000 →
          loadRoom (stringifyParseRoom (saveRoom room)) now = none) := by
  refine ⟨?_, ?_, ?_, ?_⟩
  · intro h
    unfold loadRoom stringifyParseRoom saveRoom
    rw [if_pos h]
  · intro p hp
    rw [hp]
    rfl
  · intro hp
    rw [hp]
    rfl
  · intro h
    unfold loadRoom stringifyParseRoom saveRoom
    rw [if_neg (not_lt.mpr (le_of_lt h))]

/-- C9 witness: a finite-valued room round trips exactly inside the TTL
window (its queue and video are fixed by the JSON image), and an expired
snapshot is rejected. -/
theorem C9_persistence_json_witness :
    loadRoom (stringifyParseRoom (saveRoom roomW)) 10001
        = some { id := roomW.id
                 users := []
                 currentVideo := roomW.currentVideo.map jsonVideo
                 isPlaying := roomW.isPlaying
                 currentTime := jsonOfJSNum roomW.currentTime
                 lastUpdate := roomW.lastUpdate
                 lastActivity := roomW.lastActivity
                 queue := roomW.queue.map jsonEntry
                 host := none
                 warningsSent := false }
      ∧ roomW.queue.map jsonEntry = roomW.queue
      ∧ roomW.currentVideo.map jsonVideo = roomW.currentVideo
      ∧ jsonOfJSNum roomW.currentTime = .num (.fin 3)
      ∧ loadRoom (stringifyParseRoom (saveRoom roomW)) 99999999 = none :=
  ⟨(C9_persistence_json roomW 10001).1 (by norm_num [roomW]),
   rfl,
   rfl,
   (C9_persistence_json roomW 10001).2.1 3 rfl,
   (C9_persistence_json roomW 99999999).2.2.2 (by norm_num [roomW])⟩

/-- C10: a join whose name field is absent, null or the empty string (all
falsy) is not rejected by the 1-30-character name rule: the participant
is admitted under the generated name "User-" plus the first four
characters of the socket id, the membership append and
host-assignment-if-none proceed normally, and the room-state reply plus
the user-joined notification are emitted with no error. -/
theorem C10_default_name (room : Room) (socketId : String) (prevName : Option String)
    (now : ℚ) (name : JSVal) (hfalsy : name.jsTruthy = false) :
    (joinRoom room socketId name prevName now).1.users
        = room.users ++ [⟨socketId, "User-" ++ socketId.take 4⟩]
      ∧ (joinRoom room socketId name prevName now).2.2
          = some ("User-" ++ socketId.take 4)
      ∧ (room.host = none →
          (joinRoom room socketId name prevName now).1.host = some socketId)
      ∧ (∀ h0, room.host = some h0 →
          (joinRoom room socketId name prevName now).1.host = some h0)
      ∧ (joinRoom room socketId name prevName now).1.lastActivity = now
      ∧ (joinRoom room socketId name prevName now).2.1
          = [⟨.sender, .roomState
                (joinRoom room socketId name prevName now).1.id
                (joinRoom room socketId name prevName now).1.users
                (joinRoom room socketId name prevName now).1.currentVideo
                (joinRoom room socketId name prevName now).1.isPlaying
                (projectedTime (joinRoom room socketId name prevName now).1 now)
                (joinRoom room socketId name prevName now).1.queue
                (decide ((joinRoom room socketId name prevName now).1.host
                   = some socketId))⟩,
             ⟨.roomExceptSender,
                .userJoined socketId ("User-" ++ socketId.take 4)⟩] := by
  have hguard : ¬((name.jsTruthy && !validateString name 1 30) = true) := by
    simp [hfalsy]
  refine ⟨?_, ?_, ?_, ?_, ?_, ?_⟩ <;>
    unfold joinRoom <;>
    rw [if_neg hguard] <;>
    simp only [hfalsy, Bool.false_eq_true, if_false, updateRoomActivity]
  · split <;> rfl
  · intro hh
    rw [if_pos (by simp [hh])]
  · intro h0 hh
    rw [if_neg (by simp [hh])]
    exact hh
  · split <;> rfl

/-- C10 witness: joins with an undefined and with an empty-string name
both default the display name. -/
theorem C10_default_name_witness :
    (joinRoom roomW "sockBBBB" .undefined none 20000).2.2 = some ("User-" ++ "sockBBBB".take 4)
      ∧ (joinRoom roomW "sockBBBB" (.str "") none 20000).1.users
          = roomW.users ++ [⟨"sockBBBB", "User-" ++ "sockBBBB".take 4⟩] :=
  ⟨(C10_default_name roomW "sockBBBB" none 20000 .undefined rfl).2.1,
   (C10_default_name roomW "sockBBBB" none 20000 (.str "") (by decide)).1⟩
